import Mathlib

/-!
Verification of the `LuaBridge` subprocess-bridge module
(`src/api/python/lua_bridge.py`).

The bridge manages a persistent LuaJIT child process and talks to it over a
JSON-line protocol on stdin/stdout.  The definitions below are a shallow
embedding of the Python module: parsed JSON values are modelled by the
inductive `Json` (integers stand in for Python numbers; the claims never
depend on floats), a Python `dict` used as an environment mapping is
modelled as a function `String → Option String`, library calls whose
behaviour is an input to the bridge (the OS, `json.loads`, the queue, the
clock) are passed in as explicit parameters, and the bridge's own code is
translated statement by statement.
-/

/-- A parsed JSON value, as produced by Python's `json.loads`.
Objects are association lists with distinct keys (a Python `dict`);
numbers are modelled as integers. -/
inductive Json where
  | null
  | bool (b : Bool)
  | num (i : Int)
  | str (s : String)
  | arr (xs : List Json)
  | obj (fields : List (String × Json))

/-- Python truthiness of a parsed JSON value: `None`, `False`, `0`, `""`,
`[]` and `\x7b\x7d` are falsy, everything else truthy. -/
def jsonTruthy : Json → Bool
  | .null => false
  | .bool b => b
  | .num i => i != 0
  | .str s => !s.isEmpty
  | .arr xs => !xs.isEmpty
  | .obj fs => !fs.isEmpty

/-- Plain association-list lookup on a JSON object's fields
(the fields of a `dict` have distinct keys, so first match is the match). -/
def dictLookup (fields : List (String × Json)) (key : String) : Option Json :=
  match fields with
  | [] => none
  | (k, v) :: rest => if k = key then some v else dictLookup rest key

/-- Python's `dict.get(key, default)`: the stored value when the key is
present — even when that value is `None` or otherwise falsy — and the
default only when the key is absent. -/
def dictGetD (fields : List (String × Json)) (key : String) (dflt : Json) : Json :=
  match dictLookup fields key with
  | some v => v
  | none => dflt

/-- Whether a JSON value is an object containing the given key. -/
def Json.hasKey : Json → String → Bool
  | .obj fs, k => (dictLookup fs k).isSome
  | _, _ => false

/-- Outcome of one `send_command` call, mirroring the Python exception
taxonomy: `bridgeError` is `LuaBridgeError(arg)` (the argument is the
Python object passed to the constructor, hence a `Json`),
`bridgeTimeout` is `LuaBridgeTimeout(msg)`, and `attributeError` is an
uncaught `AttributeError` — an exception that is not a `LuaBridgeError`
at all. -/
inductive SendOutcome where
  | success (result : Json)
  | bridgeError (msg : Json)
  | bridgeTimeout (msg : String)
  | attributeError

/-- `true` exactly on the `bridgeTimeout` outcome. -/
def SendOutcome.isTimeout : SendOutcome → Bool
  | .bridgeTimeout _ => true
  | _ => false

/-- `true` exactly on the `bridgeError` outcome (a `LuaBridgeError` that is
not the timeout subclass). -/
def SendOutcome.isGenericBridgeError : SendOutcome → Bool
  | .bridgeError _ => true
  | _ => false

/-- `true` exactly on the two `LuaBridgeError`-taxonomy outcomes
(`LuaBridgeTimeout` is a subclass of `LuaBridgeError`). -/
def SendOutcome.isLuaBridgeError : SendOutcome → Bool
  | .bridgeError _ => true
  | .bridgeTimeout _ => true
  | _ => false

/-- The tail of `_send_command_locked` from the parsed response on
(`lua_bridge.py` lines 175-178):

* `if not response.get("ok"): raise LuaBridgeError(response.get("error", "Unknown error from bridge"))`
* `return response.get("result", \x7b\x7d)`

On a non-`dict` value, `response.get` raises `AttributeError`. -/
def handleResponse (response : Json) : SendOutcome :=
  match response with
  | .obj fields =>
    if jsonTruthy (dictGetD fields "ok" .null) = false then
      .bridgeError (dictGetD fields "error" (.str "Unknown error from bridge"))
    else
      .success (dictGetD fields "result" (.obj []))
  | _ => .attributeError

/-! ## Compact JSON serialization (`json.dumps(request, separators=(",", ":"))`)

`json.dumps` with its default `ensure_ascii=True` writes every character
outside `0x20`-`0x7e` (and the two characters `"` and `\`) in escaped
form, so the emitted line can never contain a literal newline.  The
separators `(",", ":")` insert no whitespace.  The definitions below
reproduce that encoder over the `Json` model. -/

/-- Opening-brace character of a JSON object. -/
def lbrace : Char := Char.ofNat 123

/-- Closing-brace character of a JSON object. -/
def rbrace : Char := Char.ofNat 125

/-- The decimal digit character for `d % 10`-style values `0`-`9`. -/
def digitChar (d : Nat) : Char :=
  if d = 0 then '0' else if d = 1 then '1' else if d = 2 then '2'
  else if d = 3 then '3' else if d = 4 then '4' else if d = 5 then '5'
  else if d = 6 then '6' else if d = 7 then '7' else if d = 8 then '8'
  else '9'

/-- Lower-case hexadecimal digit character for values `0`-`15`, as used by
Python's `\uXXXX` escapes. -/
def hexDigit (d : Nat) : Char :=
  if d < 10 then digitChar d
  else if d = 10 then 'a' else if d = 11 then 'b' else if d = 12 then 'c'
  else if d = 13 then 'd' else if d = 14 then 'e' else 'f'

/-- Decimal digits of a natural number, most significant first
(fuel-driven division loop; `fuel = n + 1` always suffices). -/
def natReprGo : Nat → Nat → List Char → List Char
  | 0, _, acc => acc
  | fuel + 1, n, acc =>
    let acc' := digitChar (n % 10) :: acc
    if n < 10 then acc' else natReprGo fuel (n / 10) acc'

/-- Decimal representation of a natural number. -/
def natRepr (n : Nat) : List Char := natReprGo (n + 1) n []

/-- Decimal representation of an integer, as Python renders an `int`
inside `json.dumps`. -/
def intRepr (i : Int) : List Char :=
  if i < 0 then '-' :: natRepr i.natAbs else natRepr i.toNat

/-- A 4-hex-digit `\uXXXX` escape. -/
def uEscape4 (n : Nat) : List Char :=
  ['\\', 'u', hexDigit (n / 4096 % 16), hexDigit (n / 256 % 16),
   hexDigit (n / 16 % 16), hexDigit (n % 16)]

/-- How `json.dumps` (with the default `ensure_ascii=True`) renders one
character of a string: the short escapes for `"` `\` and the control
characters with names, a literal character in `0x20`-`0x7e`, and a
`\uXXXX` escape (a surrogate pair above `0xFFFF`) for everything else. -/
def escapeChar (c : Char) : List Char :=
  if c = '"' then ['\\', '"']
  else if c = '\\' then ['\\', '\\']
  else if c = '\n' then ['\\', 'n']
  else if c = '\r' then ['\\', 'r']
  else if c = '\t' then ['\\', 't']
  else if c.toNat = 8 then ['\\', 'b']
  else if c.toNat = 12 then ['\\', 'f']
  else if 32 ≤ c.toNat ∧ c.toNat ≤ 126 then [c]
  else if c.toNat < 65536 then uEscape4 c.toNat
  else uEscape4 (55296 + (c.toNat - 65536) / 1024) ++ uEscape4 (56320 + (c.toNat - 65536) % 1024)

/-- Escape every character of a string body. -/
def escapeString : List Char → List Char
  | [] => []
  | c :: cs => escapeChar c ++ escapeString cs

/-- Join pre-rendered pieces with the compact `","` separator. -/
def joinComma : List (List Char) → List Char
  | [] => []
  | [p] => p
  | p :: ps => p ++ ',' :: joinComma ps

mutual

/-- Compact serialization of a `Json` value: `json.dumps(v, separators=(",", ":"))`. -/
def dumpsJson : Json → List Char
  | .null => "null".data
  | .bool true => "true".data
  | .bool false => "false".data
  | .num i => intRepr i
  | .str s => '"' :: escapeString s.data ++ ['"']
  | .arr xs => '[' :: joinComma (dumpsElems xs) ++ [']']
  | .obj fs => lbrace :: joinComma (dumpsFields fs) ++ [rbrace]
termination_by j => sizeOf j

/-- Serialized pieces of an array's elements, in order. -/
def dumpsElems : List Json → List (List Char)
  | [] => []
  | x :: xs => dumpsJson x :: dumpsElems xs
termination_by xs => sizeOf xs

/-- Serialized `"key":value` pieces of an object's fields, in order. -/
def dumpsFields : List (String × Json) → List (List Char)
  | [] => []
  | (k, v) :: fs =>
    ('"' :: escapeString k.data ++ '"' :: ':' :: dumpsJson v) :: dumpsFields fs
termination_by fs => sizeOf fs

end

/-- `true` when the string contains no space character. -/
def strSpaceFree (s : String) : Bool := s.data.all fun c => c != ' '

mutual

/-- `true` when no string content or object key inside the JSON value
contains a space character — under this condition the compact
serialization contains no space at all. -/
def jsonSpaceFree : Json → Bool
  | .str s => strSpaceFree s
  | .arr xs => elemsSpaceFree xs
  | .obj fs => fieldsSpaceFree fs
  | _ => true
termination_by j => sizeOf j

/-- `jsonSpaceFree` over an array's elements. -/
def elemsSpaceFree : List Json → Bool
  | [] => true
  | x :: xs => jsonSpaceFree x && elemsSpaceFree xs
termination_by xs => sizeOf xs

/-- `jsonSpaceFree` over an object's fields, keys included. -/
def fieldsSpaceFree : List (String × Json) → Bool
  | [] => true
  | (k, v) :: fs => strSpaceFree k && jsonSpaceFree v && fieldsSpaceFree fs
termination_by fs => sizeOf fs

end

/-! ## The command channel (`_send_command_locked`, `_read_line`) -/

/-- The request body built by `_send_command_locked`
(`lua_bridge.py` lines 153-155):

* `request = dict(command=command)`
* `if params: request["params"] = params`

`params` is `dict | None`; the `if params:` truthiness test adds the
`"params"` field exactly when `params` is a non-empty dict. -/
def buildRequest (command : String) (params : Option (List (String × Json))) : Json :=
  match params with
  | some ps =>
    if ps.isEmpty then Json.obj [("command", Json.str command)]
    else Json.obj [("command", Json.str command), ("params", Json.obj ps)]
  | none => Json.obj [("command", Json.str command)]

/-- The serialized request line exactly as `_send_command_locked` builds it:
`json.dumps(request, separators=(",", ":"))` followed by the single `"\n"`
appended before the write. -/
def requestLine (command : String) (params : Option (List (String × Json))) : List Char :=
  dumpsJson (buildRequest command params) ++ ['\n']

/-- One `queue.Queue.get(timeout=...)` call on the stdout queue, as seen by
`_read_line`: either an item arrives in time — a line (`some s`) or the
terminal `None` sentinel pushed by the stdout pump — or the wait ends in
`queue.Empty`. -/
inductive QueueGetResult where
  | item (x : Option String)
  | empty

/-- `LuaBridge._read_line` (`lua_bridge.py` lines 195-201): returns the
queue item on arrival — so the `None` sentinel is returned as `None` —
and also returns `None` when the `queue.Empty` timeout fires.  The two
situations are indistinguishable to the caller. -/
def readLine : QueueGetResult → Option String
  | .item x => x
  | .empty => none

/-- Result of the `stdin.write`/`flush` pair: either it succeeds or it
raises `BrokenPipeError`/`OSError` carrying `err`. -/
inductive WriteResult where
  | ok
  | fail (err : String)

/-- Externally visible I/O actions of one `_send_command_locked` call:
the lines successfully written to the child's stdin, and whether the
stdout queue was read at all. -/
structure SendEffects where
  written : List String
  readAttempted : Bool

/-- The single-quote character, built by code point to keep the source
free of literal quote characters. -/
def squote : String := String.mk [Char.ofNat 39]

/-- The message of the `LuaBridgeTimeout` raised on line 168:
`f"Command {command} timed out after {timeout}s"` with the
command name single-quoted. -/
def timeoutMsg (command : String) (timeout : Nat) : String :=
  "Command " ++ squote ++ command ++ squote ++ " timed out after " ++
    String.mk (natRepr timeout) ++ "s"

/-- `LuaBridge._send_command_locked` (`lua_bridge.py` lines 143-178),
with the environment's behaviour passed in explicitly:

* `procPresent`/`procExited` — `self._process is None` / `poll() is not None`;
* `write` — outcome of `stdin.write(request_json + "\n"); stdin.flush()`;
* `read` — outcome of the one `queue.get(timeout=timeout)` inside `_read_line`;
* `loads` — `json.loads` on the returned line (`none` = `JSONDecodeError`).

The timeout is modelled as a natural number of seconds (the claims never
inspect Python's float formatting of it). -/
def sendCommandLocked (procPresent : Bool) (procExited : Bool)
    (command : String) (params : Option (List (String × Json)))
    (timeout : Nat) (write : WriteResult) (read : QueueGetResult)
    (loads : String → Option Json) : SendOutcome × SendEffects :=
  if procPresent = false ∨ procExited = true then
    (.bridgeError (.str "Bridge subprocess is not running"), ⟨[], false⟩)
  else
    let request_line : String := ⟨requestLine command params⟩
    match write with
    | .fail err =>
      (.bridgeError (.str ("Failed to write to bridge: " ++ err)), ⟨[], false⟩)
    | .ok =>
      let eff : SendEffects := ⟨[request_line], true⟩
      match readLine read with
      | none => (.bridgeTimeout (timeoutMsg command timeout), eff)
      | some response_line =>
        match loads response_line with
        | none => (.bridgeError (.str ("Invalid JSON response: " ++ response_line)), eff)
        | some response => (handleResponse response, eff)

/-! ## The stdout pump (`_read_stdout`) -/

/-- `str.rstrip("\n\r")`: remove every trailing character that is a
newline or carriage return. -/
def rstripNlCr (s : String) : String :=
  ⟨(s.data.reverse.dropWhile fun c => c = '\n' ∨ c = '\r').reverse⟩

/-- `LuaBridge._read_stdout` (`lua_bridge.py` lines 180-193), run to
completion over the whole stream: `lines` are the raw lines the iteration
over `self._process.stdout` yields; `errAt = some k` means the `(k+1)`-th
read raises `OSError`/`ValueError` (swallowed by the `except` clause),
`errAt = none` means the stream ends normally.  The result is the full
sequence of values put on the stdout queue, in order; the `finally`
clause contributes the single terminal `none` sentinel. -/
def readStdoutGo : List String → Option Nat → List (Option String)
  | _, some 0 => [none]
  | [], _ => [none]
  | line :: rest, errAt =>
    let stripped := rstripNlCr line
    let tail := readStdoutGo rest (errAt.map fun k => k - 1)
    if stripped.isEmpty then tail else some stripped :: tail

/-! ## Environment construction in `start` (`lua_bridge.py` lines 66-74) -/

/-- An OS environment, as a mapping from variable names to values
(the Python `dict` returned by `os.environ.copy()`). -/
abbrev EnvMap := String → Option String

/-- `dict` item assignment `env[k] = v`. -/
def envSet (env : EnvMap) (k v : String) : EnvMap :=
  fun k' => if k' = k then some v else env k'

/-- The value `start` assigns to `LUA_PATH`. -/
def luaPathValue : String := "../runtime/lua/?.lua;../runtime/lua/?/init.lua;;"

/-- The value `start` assigns to `LUA_CPATH` on Windows. -/
def luaCPathValue : String := "../runtime/?.dll;;"

/-- The environment passed to `subprocess.Popen`: a copy of the inherited
environment, then `env["LUA_PATH"] = ...` always, and
`env["LUA_CPATH"] = ...` when `sys.platform == "win32"`. -/
def childEnv (isWindows : Bool) (inherited : EnvMap) : EnvMap :=
  let env := envSet inherited "LUA_PATH" luaPathValue
  if isWindows then envSet env "LUA_CPATH" luaCPathValue else env

/-! ## Bridge lifecycle (`__init__`, `start`, `_kill`, `shutdown`)

Python object identity is modelled by generation numbers: `nextGen` is a
fresh-identity supply, and every `queue.Queue()` / `subprocess.Popen(...)`
construction hands out a new number.  `self._lock` is given its identity
once, in `__init__`; `start` never constructs another lock, which is
exactly what the identity model must show. -/

/-- The mutable attributes of a `LuaBridge` object that the lifecycle
methods touch, with object identities as generation numbers. -/
structure BridgeState where
  started : Bool
  process : Option Nat
  procExited : Bool
  queueGen : Nat
  lockGen : Nat
  nextGen : Nat
deriving DecidableEq

/-- The state set up by `LuaBridge.__init__`: not started, no process,
one lock (identity 0) and one initial queue (identity 1). -/
def initBridge : BridgeState :=
  { started := false, process := none, procExited := false,
    queueGen := 1, lockGen := 0, nextGen := 2 }

/-- `LuaBridge._kill` (`lua_bridge.py` lines 215-224): force-kill the
process if any, swallow every error, then `self._process = None` and
`self._started = False`. -/
def killB (s : BridgeState) : BridgeState :=
  { s with process := none, procExited := false, started := false }

/-- What the one `_read_line(timeout=timeout)` of the ready handshake
produced: `none` when it returned `None` (queue timeout or sentinel),
otherwise the raw line together with its `json.loads` result
(`none` = `JSONDecodeError`). -/
abbrev ReadyRead := Option (String × Option Json)

/-- How one `start` call ended, mirroring `lua_bridge.py` lines 50-123:
the three designed `LuaBridgeError` raises, the early idempotent return,
the pre-spawn configuration raises, the undesigned `AttributeError` from
`ready_msg.get("ready")` on a non-`dict` handshake value, and success. -/
inductive StartOutcome where
  | alreadyStarted
  | configMissing
  | noOutput
  | invalidReadyJson (raw : String)
  | badReadyMsg (msg : Json)
  | readyAttrError
  | ready

/-- Result of one `start` call: the new attribute state, how the call
ended, and whether `self._kill()` ran on the child spawned by this call. -/
structure StartResult where
  state : BridgeState
  outcome : StartOutcome
  killedChild : Bool

/-- `LuaBridge.start` (`lua_bridge.py` lines 50-123) with the
environment's behaviour passed in: `pathsOk` is the conjunction of the
two pre-spawn path checks, and `ready` is what the handshake read
produced.  A successful spawn installs a fresh process identity and then
a fresh stdout-queue identity (`self._stdout_queue = queue.Queue()`,
line 89); no path constructs a new lock. -/
def startB (s : BridgeState) (pathsOk : Bool) (ready : ReadyRead) : StartResult :=
  if s.started then ⟨s, .alreadyStarted, false⟩
  else if pathsOk = false then ⟨s, .configMissing, false⟩
  else
    let s1 : BridgeState :=
      { s with process := some s.nextGen, procExited := false,
               queueGen := s.nextGen + 1, nextGen := s.nextGen + 2 }
    match ready with
    | none => ⟨killB s1, .noOutput, true⟩
    | some (raw, none) => ⟨killB s1, .invalidReadyJson raw, true⟩
    | some (_, some msg) =>
      match msg with
      | .obj fields =>
        if jsonTruthy (dictGetD fields "ready" .null) then
          ⟨{ s1 with started := true }, .ready, false⟩
        else ⟨killB s1, .badReadyMsg msg, true⟩
      | _ => ⟨s1, .readyAttrError, false⟩

/-- Environmental outcome of the started branch of `shutdown`
(`lua_bridge.py` lines 226-247): the `shutdown` command round-trip (sent
or swallowed) followed by a wait that succeeds (`cleanExit`); the first
wait timing out so the process is killed and waited again
(`waitTimeoutKill` — `kill()`/`wait()` touch only the OS process, not the
modelled attributes); or some exception escaping the inner `try`, upon
which the `except` clause runs `self._kill()` (`outerRaise`).  Every case
falls through to the `finally` clause. -/
inductive ShutdownEnv where
  | cleanExit
  | waitTimeoutKill
  | outerRaise

/-- `LuaBridge.shutdown`: early return when `not self._started`;
otherwise the inner best-effort block (with `self._kill()` on an escaped
exception) followed by the unconditional `finally` clause
`self._process = None; self._started = False`. -/
def shutdownB (s : BridgeState) (env : ShutdownEnv) : BridgeState :=
  if s.started = false then s
  else
    let s1 := match env with
      | .outerRaise => killB s
      | _ => s
    { s1 with process := none, procExited := false, started := false }

/-! ## Claims about the command channel -/

/-- Claim C1, amended.  The claim said the terminal sentinel makes
`send_command` fail with the generic `BridgeError`; in the code the
sentinel is returned by `_read_line` as `None` — indistinguishable from
the `queue.Empty` timeout — so both the sentinel case and the genuine
timeout case raise `LuaBridgeTimeout`: the code does not distinguish
"child exited" from "child is slow". -/
theorem sentinel_and_timeout_both_raise_bridgeTimeout
    (command : String) (params : Option (List (String × Json))) (timeout : Nat)
    (loads : String → Option Json) :
    (sendCommandLocked true false command params timeout .ok (.item none) loads).1 =
      .bridgeTimeout (timeoutMsg command timeout) ∧
    (sendCommandLocked true false command params timeout .ok .empty loads).1 =
      .bridgeTimeout (timeoutMsg command timeout) := by
  constructor <;> rfl

/-- Claim C1, counterexample.  At a concrete call on a started bridge with
a live process, where the stdout pump pushed the terminal sentinel before
any response and before the timeout, the outcome is of the timeout kind
`LuaBridgeTimeout`, not the generic `LuaBridgeError` the claim requires. -/
theorem sentinel_outcome_is_timeout_kind_not_generic :
    SendOutcome.isTimeout
      (sendCommandLocked true false "build" none 10 .ok (.item none) (fun _ => none)).1 = true ∧
    SendOutcome.isGenericBridgeError
      (sendCommandLocked true false "build" none 10 .ok (.item none) (fun _ => none)).1 = false := by
  constructor <;> rfl

/-- Claim C7: on a started bridge whose process handle is absent or whose
process has already exited, `_send_command_locked` raises
`LuaBridgeError("Bridge subprocess is not running")` immediately —
nothing is written to the child, the stdout queue is never read, and the
call returns no new state (the function, like the source, has no way to
spawn a replacement process). -/
theorem dead_process_fails_fast (procPresent procExited : Bool)
    (command : String) (params : Option (List (String × Json)))
    (timeout : Nat) (write : WriteResult) (read : QueueGetResult)
    (loads : String → Option Json)
    (h : procPresent = false ∨ procExited = true) :
    sendCommandLocked procPresent procExited command params timeout write read loads =
      (.bridgeError (.str "Bridge subprocess is not running"), ⟨[], false⟩) := by
  unfold sendCommandLocked
  rw [if_pos h]

/-- Witness for `dead_process_fails_fast`: a concrete call with a present
but exited process. -/
theorem dead_process_fails_fast_witness :
    sendCommandLocked true true "build" none 10 .ok .empty (fun _ => none) =
      (.bridgeError (.str "Bridge subprocess is not running"), ⟨[], false⟩) :=
  dead_process_fails_fast true true "build" none 10 .ok .empty (fun _ => none) (Or.inr rfl)

/-- Claim C4, amended.  The code uses `response.get("error", default)`,
not `response.error or default`: whenever the `"error"` key is present
its stored value is passed to `LuaBridgeError` verbatim — even when that
value is `null`, the empty string, or otherwise falsy — and the fixed
message `"Unknown error from bridge"` is used exactly when the key is
absent. -/
theorem error_field_taken_verbatim_when_present (fields : List (String × Json))
    (h : jsonTruthy (dictGetD fields "ok" .null) = false) :
    (∀ v, dictLookup fields "error" = some v →
      handleResponse (.obj fields) = .bridgeError v) ∧
    (dictLookup fields "error" = none →
      handleResponse (.obj fields) = .bridgeError (.str "Unknown error from bridge")) := by
  constructor
  · intro v hv
    simp only [handleResponse]
    rw [if_pos h]
    simp only [dictGetD]
    rw [hv]
  · intro hv
    simp only [handleResponse]
    rw [if_pos h]
    simp only [dictGetD]
    rw [hv]

/-- Witness for `error_field_taken_verbatim_when_present`, at the two
concrete envelopes of the counterexample and of the key-absent case. -/
theorem error_field_taken_verbatim_witness :
    handleResponse (.obj [("ok", .bool false), ("error", .null)]) = .bridgeError .null ∧
    handleResponse (.obj [("ok", .bool false)]) =
      .bridgeError (.str "Unknown error from bridge") := by
  constructor
  · exact (error_field_taken_verbatim_when_present
      [("ok", .bool false), ("error", .null)] rfl).1 .null rfl
  · exact (error_field_taken_verbatim_when_present
      [("ok", .bool false)] rfl).2 rfl

/-- Claim C4, counterexample.  For the response `\x7b"ok": false,
"error": null\x7d` — `"error"` present but null — the raised
`LuaBridgeError` carries `None`, not the fixed message
`"Unknown error from bridge"` the claim requires. -/
theorem error_null_carried_not_default :
    handleResponse (.obj [("ok", .bool false), ("error", .null)]) = .bridgeError .null ∧
    handleResponse (.obj [("ok", .bool false), ("error", .null)]) ≠
      .bridgeError (.str "Unknown error from bridge") := by
  constructor
  · rfl
  · intro hcontra
    rw [show handleResponse (.obj [("ok", .bool false), ("error", .null)]) =
      .bridgeError .null from rfl] at hcontra
    simp at hcontra

/-- Claim C10: a response line that is well-formed JSON but not a JSON
object — here the line `"42"`, `json.loads` of which is the number `42` —
makes `_send_command_locked` raise `AttributeError` (from calling `.get`
on an `int`), an exception outside the `LuaBridgeError` taxonomy. -/
theorem nonobject_json_response_escapes_taxonomy :
    (sendCommandLocked true false "build" none 10 .ok (.item (some "42"))
      (fun s => if s = "42" then some (.num 42) else none)).1 = .attributeError ∧
    SendOutcome.isLuaBridgeError .attributeError = false := by
  constructor <;> rfl

/-! ## Claims about the lifecycle -/

/-- Claim C6: `shutdown` on a never-started bridge returns the state
untouched on every environmental path (no process spawned or touched);
after a `shutdown` on a started bridge the process handle is cleared and
the started flag unset regardless of which internal path ran; and a
second `shutdown` immediately after any first one is a no-op, so
`shutdown` is idempotent. -/
theorem shutdown_noop_and_idempotent (s : BridgeState) (e e' : ShutdownEnv) :
    (s.started = false → shutdownB s e = s) ∧
    (s.started = true →
      (shutdownB s e).process = none ∧ (shutdownB s e).started = false) ∧
    shutdownB (shutdownB s e) e' = shutdownB s e := by
  by_cases hs : s.started = false
  · constructor
    · intro _
      simp [shutdownB, hs]
    constructor
    · intro ht
      rw [ht] at hs
      exact absurd hs (by simp)
    · simp [shutdownB, hs]
  · have hs' : s.started = true := by
      cases h : s.started
      · exact absurd h hs
      · rfl
    constructor
    · intro h
      exact absurd h hs
    constructor
    · intro _
      cases e <;> simp [shutdownB, hs', killB]
    · cases e <;> cases e' <;> simp [shutdownB, hs', killB]

/-- Witness for `shutdown_noop_and_idempotent`: on the freshly
constructed bridge (never started), `shutdown` is the identity. -/
theorem shutdown_noop_witness :
    shutdownB initBridge .cleanExit = initBridge ∧
    (shutdownB { initBridge with started := true, process := some 5 } .outerRaise).process
      = none := by
  constructor
  · exact (shutdown_noop_and_idempotent initBridge .cleanExit .cleanExit).1 rfl
  · exact ((shutdown_noop_and_idempotent
      { initBridge with started := true, process := some 5 } .outerRaise .cleanExit).2.1 rfl).1

/-- Claim C2, counterexample.  With an inherited environment in which
`LUA_PATH` is `"/custom/?.lua"`, the environment handed to the child has
`LUA_PATH` equal to the bridge's fixed string: the inherited value is not
even a substring of it, so nothing was appended — the assignment on line
69 replaces the inherited value. -/
theorem lua_path_replaced_not_appended :
    childEnv false (fun k => if k = "LUA_PATH" then some "/custom/?.lua" else none)
      "LUA_PATH" = some luaPathValue ∧
    ¬ ("/custom/?.lua".data <:+: luaPathValue.data) := by
  constructor
  · rfl
  · decide

/-- Claim C2, amended.  The child environment starts from a copy of the
inherited one, so every variable other than the two search-path variables
keeps its inherited value; `LUA_PATH` (and on Windows `LUA_CPATH`) is
overwritten with the bridge's fixed value, discarding any inherited
value rather than appending to it; off Windows, `LUA_CPATH` is left
untouched. -/
theorem childEnv_overwrites_search_paths (w : Bool) (env : EnvMap) (k : String)
    (h1 : k ≠ "LUA_PATH") (h2 : k ≠ "LUA_CPATH") :
    childEnv w env k = env k ∧
    childEnv w env "LUA_PATH" = some luaPathValue ∧
    (w = true → childEnv w env "LUA_CPATH" = some luaCPathValue) ∧
    (w = false → childEnv w env "LUA_CPATH" = env "LUA_CPATH") := by
  have hcp : ("LUA_CPATH" : String) ≠ "LUA_PATH" := by decide
  cases w <;>
    simp [childEnv, envSet, h1, h2, hcp]

/-- Witness for `childEnv_overwrites_search_paths`: the variable `PATH`
is preserved while `LUA_PATH` is set to the fixed value, on both
platforms. -/
theorem childEnv_overwrites_search_paths_witness :
    childEnv true (fun k => if k = "PATH" then some "/usr/bin" else none) "PATH"
      = some "/usr/bin" ∧
    childEnv false (fun k => if k = "PATH" then some "/usr/bin" else none) "LUA_PATH"
      = some luaPathValue := by
  constructor
  · exact (childEnv_overwrites_search_paths true
      (fun k => if k = "PATH" then some "/usr/bin" else none) "PATH"
      (by decide) (by decide)).1.trans (by rfl)
  · exact (childEnv_overwrites_search_paths false
      (fun k => if k = "PATH" then some "/usr/bin" else none) "PATH"
      (by decide) (by decide)).2.1

/-- Claim C3, counterexample.  Starting the freshly constructed bridge
(one spawn, handshake read returns nothing) hands out a fresh stdout
queue identity, but the lock identity after `start` is still the one
`__init__` created: `start` (lines 86-95) runs
`self._stdout_queue = queue.Queue()` and never constructs a new
`threading.Lock`, so the claimed fresh `BridgeLock` per process instance
does not exist. -/
theorem start_reuses_init_lock :
    (startB initBridge true none).state.lockGen = initBridge.lockGen ∧
    (startB initBridge true none).state.queueGen ≠ initBridge.queueGen := by
  constructor
  · rfl
  · decide

/-- Claim C3, amended.  Every `start` call that proceeds to spawn — not
already started, path checks passed — installs a fresh `StdoutQueue`
(its identity is drawn from the fresh-identity supply, hence differs from
the previous queue's and from every previously allocated identity, so no
stale line can be observed), on every handshake outcome; the
`BridgeLock`, however, is created once in `__init__` and reused unchanged
across process instances. -/
theorem start_fresh_queue_same_lock (s : BridgeState) (ready : ReadyRead)
    (hs : s.started = false) (hq : s.queueGen < s.nextGen) :
    (startB s true ready).state.queueGen = s.nextGen + 1 ∧
    (startB s true ready).state.queueGen ≠ s.queueGen ∧
    (startB s true ready).state.lockGen = s.lockGen := by
  have hbase : ∀ r : StartResult,
      r.state.queueGen = s.nextGen + 1 → r.state.queueGen ≠ s.queueGen := by
    intro r h
    rw [h]
    omega
  rcases ready with _ | ⟨raw, _ | msg⟩
  · refine ⟨?_, fun h => absurd h (by rw [show (startB s true none).state.queueGen
      = s.nextGen + 1 from by simp [startB, hs, killB]]; omega), ?_⟩ <;>
      simp [startB, hs, killB]
  · refine ⟨?_, ?_, ?_⟩ <;> simp [startB, hs, killB] <;> omega
  · cases msg <;>
      first
      | (refine ⟨?_, ?_, ?_⟩ <;> simp [startB, hs, killB] <;> omega)
      | (rename_i fields
         by_cases hr : jsonTruthy (dictGetD fields "ready" .null) = true
         · refine ⟨?_, ?_, ?_⟩ <;> simp [startB, hs, killB, hr] <;> omega
         · have hr' : jsonTruthy (dictGetD fields "ready" .null) = false := by
             cases h : jsonTruthy (dictGetD fields "ready" .null)
             · rfl
             · exact absurd h hr
           refine ⟨?_, ?_, ?_⟩ <;> simp [startB, hs, killB, hr'] <;> omega)

/-- Witness for `start_fresh_queue_same_lock`: the freshly constructed
bridge started once with a handshake read that returns nothing. -/
theorem start_fresh_queue_same_lock_witness :
    (startB initBridge true none).state.queueGen = initBridge.nextGen + 1 ∧
    (startB initBridge true none).state.queueGen ≠ initBridge.queueGen ∧
    (startB initBridge true none).state.lockGen = initBridge.lockGen :=
  start_fresh_queue_same_lock initBridge none rfl (by decide)

/-- Claim C5, amended.  When `start` raises after spawning because the
ready read produced nothing, produced a non-JSON line, or produced a JSON
*object* without a truthy `ready` field, the spawned child is
force-killed before the exception propagates, the process handle is
cleared, and the started flag stays unset so a later `start` may retry.
(When the line parses to a non-object JSON value the raise is an
`AttributeError` that skips the kill — see the counterexample.) -/
theorem handshake_failure_kills_child (s : BridgeState) (raw : String)
    (fields : List (String × Json)) (hs : s.started = false) :
    ((startB s true none).killedChild = true ∧
      (startB s true none).state.process = none ∧
      (startB s true none).state.started = false) ∧
    ((startB s true (some (raw, none))).killedChild = true ∧
      (startB s true (some (raw, none))).state.process = none ∧
      (startB s true (some (raw, none))).state.started = false) ∧
    (jsonTruthy (dictGetD fields "ready" .null) = false →
      (startB s true (some (raw, some (.obj fields)))).killedChild = true ∧
      (startB s true (some (raw, some (.obj fields)))).state.process = none ∧
      (startB s true (some (raw, some (.obj fields)))).state.started = false) := by
  refine ⟨by simp [startB, hs, killB], by simp [startB, hs, killB], fun hr => ?_⟩
  simp [startB, hs, killB, hr]

/-- Witness for `handshake_failure_kills_child`: the fresh bridge, a
ready line `not json` (which `json.loads` rejects), and the negative
handshake object `\x7b"ready": false\x7d`. -/
theorem handshake_failure_kills_child_witness :
    ((startB initBridge true none).killedChild = true ∧
      (startB initBridge true none).state.process = none ∧
      (startB initBridge true none).state.started = false) ∧
    ((startB initBridge true (some ("not json", none))).killedChild = true ∧
      (startB initBridge true (some ("not json", none))).state.process = none ∧
      (startB initBridge true (some ("not json", none))).state.started = false) ∧
    ((startB initBridge true
        (some ("ready-false", some (.obj [("ready", .bool false)])))).killedChild = true ∧
      (startB initBridge true
        (some ("ready-false", some (.obj [("ready", .bool false)])))).state.process = none ∧
      (startB initBridge true
        (some ("ready-false", some (.obj [("ready", .bool false)])))).state.started = false) := by
  have h := handshake_failure_kills_child initBridge "not json"
    [("ready", .bool false)] rfl
  have h2 := handshake_failure_kills_child initBridge "ready-false"
    [("ready", .bool false)] rfl
  exact ⟨h.1, h.2.1, h2.2.2 rfl⟩

/-- Claim C5, counterexample.  The ready line `42` is valid JSON without
a truthy `ready` field, yet `start` raises the `AttributeError` from
`ready_msg.get("ready")` (line 118) without running `self._kill()`: the
child is not killed and the process handle survives, although the
started flag does stay unset. -/
theorem nonobject_ready_line_skips_kill :
    (startB initBridge true (some ("42", some (.num 42)))).killedChild = false ∧
    (startB initBridge true (some ("42", some (.num 42)))).state.process ≠ none ∧
    (startB initBridge true (some ("42", some (.num 42)))).outcome = .readyAttrError ∧
    (startB initBridge true (some ("42", some (.num 42)))).state.started = false := by
  refine ⟨rfl, ?_, rfl, rfl⟩
  intro h
  rw [show (startB initBridge true (some ("42", some (.num 42)))).state.process
    = some 2 from rfl] at h
  cases h

/-! ## Claim about the stdout pump -/

/-- The raw lines the pump's `for` loop actually processes: the whole
stream when no read error occurs, the first `k` lines when the
`(k+1)`-th read raises. -/
def effectiveLines (lines : List String) : Option Nat → List String
  | none => lines
  | some k => lines.take k

/-- Equation form of `readStdoutGo` as strip-filter-append. -/
theorem readStdoutGo_eq (lines : List String) : ∀ errAt : Option Nat,
    readStdoutGo lines errAt =
      (((effectiveLines lines errAt).map rstripNlCr).filter
        (fun s => !s.isEmpty)).map some ++ [none] := by
  induction lines with
  | nil =>
    intro errAt
    rcases errAt with _ | k
    · simp [readStdoutGo, effectiveLines]
    · cases k <;> simp [readStdoutGo, effectiveLines]
  | cons line rest ih =>
    intro errAt
    rcases errAt with _ | (_ | k)
    · by_cases hv : (rstripNlCr line).isEmpty <;>
        simp [readStdoutGo, effectiveLines, ih none, hv, List.filter_cons]
    · simp [readStdoutGo, effectiveLines]
    · have ihk := ih (some k)
      by_cases hv : (rstripNlCr line).isEmpty <;>
        simp [readStdoutGo, effectiveLines, hv, List.filter_cons] <;>
        simpa [effectiveLines] using ihk

/-- Claim C9: over any run of the stdout pump — any stream of raw lines,
with or without a read error cutting the loop short — each processed line
has its trailing `"\n"`/`"\r"` characters stripped, exactly the non-empty
stripped lines are enqueued in arrival order, and the queue ends with
exactly one terminal sentinel, pushed by the `finally` clause as the
pump exits. -/
theorem pump_strips_filters_and_sentinels (lines : List String) (errAt : Option Nat) :
    readStdoutGo lines errAt =
      (((effectiveLines lines errAt).map rstripNlCr).filter
        (fun s => !s.isEmpty)).map some ++ [none] ∧
    (readStdoutGo lines errAt).count (none : Option String) = 1 := by
  refine ⟨readStdoutGo_eq lines errAt, ?_⟩
  rw [readStdoutGo_eq lines errAt]
  rw [List.count_append]
  have hz : ((((effectiveLines lines errAt).map rstripNlCr).filter
      (fun s => !s.isEmpty)).map some).count (none : Option String) = 0 := by
    rw [List.count_eq_zero]
    intro hmem
    rcases List.mem_map.mp hmem with ⟨x, _, hx⟩
    cases hx
  rw [hz]
  rfl

/-! ## Character-level facts about the compact encoder

These culminate in `dumpsJson_safe`: no character of a compact
serialization is a newline or carriage return, and a space can occur
only when some string literal inside the value contains one. -/

/-- The ten decimal digit characters. -/
def decimalChars : List Char :=
  ['0', '1', '2', '3', '4', '5', '6', '7', '8', '9']

/-- The sixteen lower-case hexadecimal digit characters. -/
def hexChars : List Char :=
  decimalChars ++ ['a', 'b', 'c', 'd', 'e', 'f']

/-- Every character the escape machinery can emit besides a literal
printable character: backslash, quote, the named-escape letters, `u`,
and hex digits. -/
def escChars : List Char := ['\\', '"', 'n', 'r', 't', 'b', 'f', 'u'] ++ hexChars

theorem digitChar_mem_hexChars (d : Nat) : digitChar d ∈ hexChars := by
  unfold digitChar
  split_ifs <;> decide

theorem hexDigit_mem_hexChars (d : Nat) : hexDigit d ∈ hexChars := by
  unfold hexDigit
  split_ifs <;> first | exact digitChar_mem_hexChars d | decide

theorem uEscape4_mem (n : Nat) : ∀ x ∈ uEscape4 n, x ∈ escChars := by
  intro x h
  simp only [uEscape4, List.mem_cons, List.not_mem_nil, or_false] at h
  rcases h with h | h | h | h | h | h <;> subst h <;>
    first
    | decide
    | exact List.mem_append_right _ (hexDigit_mem_hexChars _)

theorem escapeChar_mem (c x : Char) (h : x ∈ escapeChar c) :
    x ∈ escChars ∨ (x = c ∧ 32 ≤ c.toNat ∧ c.toNat ≤ 126) := by
  unfold escapeChar at h
  split_ifs at h with h1 h2 h3 h4 h5 h6 h7 h8 h9
  · left
    simp only [List.mem_cons, List.not_mem_nil, or_false] at h
    rcases h with h | h <;> subst h <;> decide
  · left
    simp only [List.mem_cons, List.not_mem_nil, or_false] at h
    rcases h with h | h <;> subst h <;> decide
  · left
    simp only [List.mem_cons, List.not_mem_nil, or_false] at h
    rcases h with h | h <;> subst h <;> decide
  · left
    simp only [List.mem_cons, List.not_mem_nil, or_false] at h
    rcases h with h | h <;> subst h <;> decide
  · left
    simp only [List.mem_cons, List.not_mem_nil, or_false] at h
    rcases h with h | h <;> subst h <;> decide
  · left
    simp only [List.mem_cons, List.not_mem_nil, or_false] at h
    rcases h with h | h <;> subst h <;> decide
  · left
    simp only [List.mem_cons, List.not_mem_nil, or_false] at h
    rcases h with h | h <;> subst h <;> decide
  · right
    simp only [List.mem_cons, List.not_mem_nil, or_false] at h
    exact ⟨h, h8.1, h8.2⟩
  · left
    exact uEscape4_mem _ x h
  · left
    rcases List.mem_append.mp h with h | h <;> exact uEscape4_mem _ x h

theorem escapeChar_safe (c x : Char) (h : x ∈ escapeChar c) :
    x ≠ '\n' ∧ x ≠ '\r' ∧ (x = ' ' → c = ' ') := by
  rcases escapeChar_mem c x h with hm | ⟨hx, hlo, hhi⟩
  · have hn : ('\n' : Char) ∉ escChars := by decide
    have hr : ('\r' : Char) ∉ escChars := by decide
    have hs : (' ' : Char) ∉ escChars := by decide
    exact ⟨fun e => hn (e ▸ hm), fun e => hr (e ▸ hm), fun e => absurd (e ▸ hm) hs⟩
  · subst hx
    refine ⟨fun e => ?_, fun e => ?_, fun e => e⟩
    · rw [e] at hlo
      exact absurd hlo (by decide)
    · rw [e] at hlo
      exact absurd hlo (by decide)

theorem escapeString_mem (cs : List Char) : ∀ x ∈ escapeString cs,
    ∃ c ∈ cs, x ∈ escapeChar c := by
  induction cs with
  | nil =>
    intro x h
    simp [escapeString] at h
  | cons c cs ih =>
    intro x h
    rw [show escapeString (c :: cs) = escapeChar c ++ escapeString cs from rfl] at h
    rcases List.mem_append.mp h with h1 | h2
    · exact ⟨c, by simp, h1⟩
    · obtain ⟨c', hc', hx'⟩ := ih x h2
      exact ⟨c', by simp [hc'], hx'⟩

theorem natReprGo_mem (fuel : Nat) : ∀ (n : Nat) (acc : List Char),
    ∀ x ∈ natReprGo fuel n acc, (∃ d, x = digitChar d) ∨ x ∈ acc := by
  induction fuel with
  | zero =>
    intro n acc x h
    exact Or.inr h
  | succ fuel ih =>
    intro n acc x h
    simp only [natReprGo] at h
    split_ifs at h with hn
    · rcases List.mem_cons.mp h with h1 | h2
      · exact Or.inl ⟨n % 10, h1⟩
      · exact Or.inr h2
    · rcases ih (n / 10) (digitChar (n % 10) :: acc) x h with h1 | h2
      · exact Or.inl h1
      · rcases List.mem_cons.mp h2 with h3 | h4
        · exact Or.inl ⟨n % 10, h3⟩
        · exact Or.inr h4

theorem intRepr_safe (i : Int) : ∀ x ∈ intRepr i, x ≠ '\n' ∧ x ≠ '\r' ∧ x ≠ ' ' := by
  have hd : ∀ d : Nat, digitChar d ≠ '\n' ∧ digitChar d ≠ '\r' ∧ digitChar d ≠ ' ' := by
    intro d
    have hm := digitChar_mem_hexChars d
    have hn : ('\n' : Char) ∉ hexChars := by decide
    have hr : ('\r' : Char) ∉ hexChars := by decide
    have hs : (' ' : Char) ∉ hexChars := by decide
    exact ⟨fun e => hn (e ▸ hm), fun e => hr (e ▸ hm), fun e => hs (e ▸ hm)⟩
  intro x h
  unfold intRepr at h
  split_ifs at h with hi
  · rcases List.mem_cons.mp h with h1 | h2
    · subst h1
      exact ⟨by decide, by decide, by decide⟩
    · rcases natReprGo_mem _ _ _ x h2 with ⟨d, hx⟩ | h3
      · subst hx
        exact hd d
      · cases h3
  · rcases natReprGo_mem _ _ _ x h with ⟨d, hx⟩ | h3
    · subst hx
      exact hd d
    · cases h3

theorem joinComma_mem (ps : List (List Char)) : ∀ x ∈ joinComma ps,
    x = ',' ∨ ∃ p ∈ ps, x ∈ p := by
  induction ps with
  | nil =>
    intro x h
    simp [joinComma] at h
  | cons p ps ih =>
    intro x h
    cases ps with
    | nil =>
      right
      exact ⟨p, by simp, by simpa [joinComma] using h⟩
    | cons q qs =>
      rw [show joinComma (p :: q :: qs) = p ++ ',' :: joinComma (q :: qs) from by
        simp [joinComma]] at h
      rcases List.mem_append.mp h with h1 | h2
      · right
        exact ⟨p, by simp, h1⟩
      rcases List.mem_cons.mp h2 with h3 | h4
      · left
        exact h3
      · rcases ih x h4 with h5 | ⟨r, hr, hxr⟩
        · left
          exact h5
        · right
          exact ⟨r, by simp [hr], hxr⟩

theorem dumpsElems_mem (xs : List Json) : ∀ p ∈ dumpsElems xs,
    ∃ y ∈ xs, p = dumpsJson y := by
  induction xs with
  | nil =>
    intro p h
    simp [dumpsElems] at h
  | cons y ys ih =>
    intro p h
    rw [show dumpsElems (y :: ys) = dumpsJson y :: dumpsElems ys from by
      simp [dumpsElems]] at h
    rcases List.mem_cons.mp h with h1 | h2
    · exact ⟨y, by simp, h1⟩
    · obtain ⟨z, hz, hpz⟩ := ih p h2
      exact ⟨z, by simp [hz], hpz⟩

theorem dumpsFields_mem (fs : List (String × Json)) : ∀ p ∈ dumpsFields fs,
    ∃ kv ∈ fs, p = '"' :: escapeString kv.1.data ++ '"' :: ':' :: dumpsJson kv.2 := by
  induction fs with
  | nil =>
    intro p h
    simp [dumpsFields] at h
  | cons kv fs ih =>
    intro p h
    obtain ⟨k, v⟩ := kv
    rw [show dumpsFields ((k, v) :: fs) =
        ('"' :: escapeString k.data ++ '"' :: ':' :: dumpsJson v) :: dumpsFields fs from by
      simp [dumpsFields]] at h
    rcases List.mem_cons.mp h with h1 | h2
    · exact ⟨(k, v), by simp, h1⟩
    · obtain ⟨kv', hkv', hp'⟩ := ih p h2
      exact ⟨kv', by simp [hkv'], hp'⟩

theorem strSpaceFree_false_of_space (s : String) (h : ' ' ∈ s.data) :
    strSpaceFree s = false := by
  unfold strSpaceFree
  cases hall : s.data.all fun c => c != ' '
  · rfl
  · exfalso
    have := List.all_eq_true.mp hall ' ' h
    simp at this

theorem elemsSpaceFree_false (y : Json) (h : jsonSpaceFree y = false) :
    ∀ xs : List Json, y ∈ xs → elemsSpaceFree xs = false := by
  intro xs
  induction xs with
  | nil =>
    intro hy
    cases hy
  | cons z zs ih =>
    intro hy
    rw [show elemsSpaceFree (z :: zs) = (jsonSpaceFree z && elemsSpaceFree zs) from by
      simp [elemsSpaceFree]]
    rcases List.mem_cons.mp hy with h1 | h2
    · rw [← h1, h]
      rfl
    · rw [ih h2]
      simp

theorem fieldsSpaceFree_false (k : String) (v : Json)
    (h : strSpaceFree k = false ∨ jsonSpaceFree v = false) :
    ∀ fs : List (String × Json), (k, v) ∈ fs → fieldsSpaceFree fs = false := by
  intro fs
  induction fs with
  | nil =>
    intro hy
    cases hy
  | cons kv fs ih =>
    intro hy
    obtain ⟨k', v'⟩ := kv
    rw [show fieldsSpaceFree ((k', v') :: fs) =
        (strSpaceFree k' && jsonSpaceFree v' && fieldsSpaceFree fs) from by
      simp [fieldsSpaceFree]]
    rcases List.mem_cons.mp hy with h1 | h2
    · have hk : k' = k := congrArg Prod.fst h1.symm
      have hv : v' = v := congrArg Prod.snd h1.symm
      subst hk
      subst hv
      rcases h with h | h <;> rw [h] <;> simp
    · rw [ih h2]
      simp

/-- Helper: a character known not to be a space satisfies the combined
line-safety conclusion for any space-freedom flag. -/
theorem safe_of_ne (x : Char) (h1 : x ≠ '\n') (h2 : x ≠ '\r') (h3 : x ≠ ' ')
    (b : Bool) : x ≠ '\n' ∧ x ≠ '\r' ∧ (x = ' ' → b = false) :=
  ⟨h1, h2, fun e => absurd e h3⟩

/-- Strong-induction core of `dumpsJson_safe`. -/
theorem dumpsJson_safe_aux : ∀ (N : Nat) (j : Json), sizeOf j ≤ N →
    ∀ x ∈ dumpsJson j,
      x ≠ '\n' ∧ x ≠ '\r' ∧ (x = ' ' → jsonSpaceFree j = false) := by
  intro N
  induction N with
  | zero =>
    intro j hle
    exfalso
    cases j <;> simp at hle
  | succ N ih =>
    intro j hle x hx
    cases j with
    | null =>
      rw [show dumpsJson .null = ['n', 'u', 'l', 'l'] from by simp [dumpsJson]] at hx
      simp only [List.mem_cons, List.not_mem_nil, or_false] at hx
      rcases hx with h | h | h | h <;> subst h <;>
        exact safe_of_ne _ (by decide) (by decide) (by decide) _
    | bool b =>
      cases b
      · rw [show dumpsJson (.bool false) = ['f', 'a', 'l', 's', 'e'] from by
          simp [dumpsJson]] at hx
        simp only [List.mem_cons, List.not_mem_nil, or_false] at hx
        rcases hx with h | h | h | h | h <;> subst h <;>
          exact safe_of_ne _ (by decide) (by decide) (by decide) _
      · rw [show dumpsJson (.bool true) = ['t', 'r', 'u', 'e'] from by
          simp [dumpsJson]] at hx
        simp only [List.mem_cons, List.not_mem_nil, or_false] at hx
        rcases hx with h | h | h | h <;> subst h <;>
          exact safe_of_ne _ (by decide) (by decide) (by decide) _
    | num i =>
      rw [show dumpsJson (.num i) = intRepr i from by simp [dumpsJson]] at hx
      obtain ⟨e1, e2, e3⟩ := intRepr_safe i x hx
      exact safe_of_ne _ e1 e2 e3 _
    | str s =>
      rw [show dumpsJson (.str s) = '"' :: escapeString s.data ++ ['"'] from by
        simp [dumpsJson]] at hx
      rcases List.mem_cons.mp hx with h1 | h2
      · subst h1
        exact safe_of_ne _ (by decide) (by decide) (by decide) _
      rcases List.mem_append.mp h2 with h3 | h4
      · obtain ⟨c, hc, hxc⟩ := escapeString_mem s.data x h3
        obtain ⟨e1, e2, e3⟩ := escapeChar_safe c x hxc
        refine ⟨e1, e2, fun e => ?_⟩
        have hc' : c = ' ' := e3 e
        rw [hc'] at hc
        rw [show jsonSpaceFree (.str s) = strSpaceFree s from by simp [jsonSpaceFree]]
        exact strSpaceFree_false_of_space s hc
      · simp only [List.mem_cons, List.not_mem_nil, or_false] at h4
        subst h4
        exact safe_of_ne _ (by decide) (by decide) (by decide) _
    | arr xs =>
      rw [show dumpsJson (.arr xs) = '[' :: joinComma (dumpsElems xs) ++ [']'] from by
        simp [dumpsJson]] at hx
      rcases List.mem_cons.mp hx with h1 | h2
      · subst h1
        exact safe_of_ne _ (by decide) (by decide) (by decide) _
      rcases List.mem_append.mp h2 with h3 | h4
      · rcases joinComma_mem _ x h3 with hcm | ⟨p, hp, hxp⟩
        · subst hcm
          exact safe_of_ne _ (by decide) (by decide) (by decide) _
        · obtain ⟨y, hy, hpy⟩ := dumpsElems_mem xs p hp
          subst hpy
          have hsz : sizeOf y ≤ N := by
            have hlt := List.sizeOf_lt_of_mem hy
            have harr : sizeOf (Json.arr xs) = 1 + sizeOf xs := by simp
            omega
          obtain ⟨e1, e2, e3⟩ := ih y hsz x hxp
          refine ⟨e1, e2, fun e => ?_⟩
          rw [show jsonSpaceFree (.arr xs) = elemsSpaceFree xs from by simp [jsonSpaceFree]]
          exact elemsSpaceFree_false y (e3 e) xs hy
      · simp only [List.mem_cons, List.not_mem_nil, or_false] at h4
        subst h4
        exact safe_of_ne _ (by decide) (by decide) (by decide) _
    | obj fs =>
      rw [show dumpsJson (.obj fs) = lbrace :: joinComma (dumpsFields fs) ++ [rbrace] from by
        simp [dumpsJson]] at hx
      rcases List.mem_cons.mp hx with h1 | h2
      · subst h1
        exact safe_of_ne _ (by decide) (by decide) (by decide) _
      rcases List.mem_append.mp h2 with h3 | h4
      · rcases joinComma_mem _ x h3 with hcm | ⟨p, hp, hxp⟩
        · subst hcm
          exact safe_of_ne _ (by decide) (by decide) (by decide) _
        · obtain ⟨kv, hkv, hpkv⟩ := dumpsFields_mem fs p hp
          subst hpkv
          rcases List.mem_cons.mp hxp with hq | hrest
          · subst hq
            exact safe_of_ne _ (by decide) (by decide) (by decide) _
          rcases List.mem_append.mp hrest with hk | hv
          · obtain ⟨c, hc, hxc⟩ := escapeString_mem kv.1.data x hk
            obtain ⟨e1, e2, e3⟩ := escapeChar_safe c x hxc
            refine ⟨e1, e2, fun e => ?_⟩
            have hc' : c = ' ' := e3 e
            rw [hc'] at hc
            rw [show jsonSpaceFree (.obj fs) = fieldsSpaceFree fs from by
              simp [jsonSpaceFree]]
            exact fieldsSpaceFree_false kv.1 kv.2
              (Or.inl (strSpaceFree_false_of_space kv.1 hc)) fs (by simpa using hkv)
          rcases List.mem_cons.mp hv with hq2 | hrest2
          · subst hq2
            exact safe_of_ne _ (by decide) (by decide) (by decide) _
          rcases List.mem_cons.mp hrest2 with hq3 | hval
          · subst hq3
            exact safe_of_ne _ (by decide) (by decide) (by decide) _
          · have hsz : sizeOf kv.2 ≤ N := by
              have hlt := List.sizeOf_lt_of_mem hkv
              have hobj : sizeOf (Json.obj fs) = 1 + sizeOf fs := by simp
              have hkv2 : sizeOf kv.2 < sizeOf kv := by
                obtain ⟨k, v⟩ := kv
                simp only [Prod.mk.sizeOf_spec]
                omega
              omega
            obtain ⟨e1, e2, e3⟩ := ih kv.2 hsz x hval
            refine ⟨e1, e2, fun e => ?_⟩
            rw [show jsonSpaceFree (.obj fs) = fieldsSpaceFree fs from by
              simp [jsonSpaceFree]]
            exact fieldsSpaceFree_false kv.1 kv.2 (Or.inr (e3 e)) fs (by simpa using hkv)
      · simp only [List.mem_cons, List.not_mem_nil, or_false] at h4
        subst h4
        exact safe_of_ne _ (by decide) (by decide) (by decide) _

/-- No character of a compact serialization is a newline or carriage
return, and a space occurs only if some string literal inside the value
contains one. -/
theorem dumpsJson_safe (j : Json) : ∀ x ∈ dumpsJson j,
    x ≠ '\n' ∧ x ≠ '\r' ∧ (x = ' ' → jsonSpaceFree j = false) :=
  dumpsJson_safe_aux (sizeOf j) j (Nat.le_refl _)

/-! ## Claim about the request line -/

/-- Truthiness of the `params` argument (`dict | None`): `True` exactly
for a non-empty mapping — the condition under which line 154-155 adds the
`"params"` field. -/
def paramsGiven (params : Option (List (String × Json))) : Bool :=
  match params with
  | none => false
  | some ps => !ps.isEmpty

theorem buildRequest_hasKey_command (command : String)
    (params : Option (List (String × Json))) :
    (buildRequest command params).hasKey "command" = true := by
  rcases params with _ | ps
  · simp [buildRequest, Json.hasKey, dictLookup]
  · by_cases h : ps.isEmpty <;> simp [buildRequest, Json.hasKey, dictLookup, h]

theorem buildRequest_hasKey_params (command : String)
    (params : Option (List (String × Json))) :
    (buildRequest command params).hasKey "params" = paramsGiven params := by
  have hne : ¬ (("command" : String) = "params") := by decide
  rcases params with _ | ps
  · simp [buildRequest, Json.hasKey, dictLookup, paramsGiven, hne]
  · by_cases h : ps.isEmpty <;>
      simp [buildRequest, Json.hasKey, dictLookup, paramsGiven, h, hne]

/-- On the live-process, successful-write path, the one line written to
the child's stdin is the serialized request plus its terminator,
whatever the subsequent read and parse do. -/
theorem sendCommandLocked_written (command : String)
    (params : Option (List (String × Json))) (timeout : Nat)
    (read : QueueGetResult) (loads : String → Option Json) :
    (sendCommandLocked true false command params timeout .ok read loads).2 =
      ⟨[String.mk (requestLine command params)], true⟩ := by
  rcases read with ⟨_ | line⟩ | _
  · rfl
  · cases hl : loads line <;> simp [sendCommandLocked, readLine, hl]
  · rfl

/-- Claim C8, counterexample.  For the command `set_item` with params
`item = "big sword"` — a perfectly ordinary params mapping — the request
line written to the child contains a literal space: `json.dumps` leaves
printable characters inside string literals untouched, so the claimed
"no spaces" fails on this input (and indeed some string of the request
contains a space). -/
theorem request_line_contains_space :
    ' ' ∈ requestLine "set_item" (some [("item", Json.str "big sword")]) ∧
    jsonSpaceFree (buildRequest "set_item" (some [("item", Json.str "big sword")])) = false := by
  have hb : buildRequest "set_item" (some [("item", Json.str "big sword")]) =
      Json.obj [("command", Json.str "set_item"),
        ("params", Json.obj [("item", Json.str "big sword")])] := rfl
  constructor
  · simp only [requestLine, hb, dumpsJson, dumpsFields, joinComma]
    decide
  · rw [hb]
    simp only [jsonSpaceFree, fieldsSpaceFree]
    decide

/-- Claim C8, amended.  For every command name and params mapping, the
line written to the child's stdin is the compact serialization of the
request envelope followed by exactly one appended line terminator: it
contains the `"command"` field, it contains the `"params"` field exactly
when the params mapping is non-empty, and no character of the serialized
envelope is a literal newline or carriage return (embedded newlines in
strings are escaped).  The serializer inserts no whitespace of its own:
when no string inside the request contains a space, the line contains no
space at all — a space can reach the line only from a string of the
request itself. -/
theorem request_line_single_compact_json (command : String)
    (params : Option (List (String × Json))) (timeout : Nat)
    (read : QueueGetResult) (loads : String → Option Json) :
    (sendCommandLocked true false command params timeout .ok read loads).2.written =
      [String.mk (requestLine command params)] ∧
    requestLine command params = dumpsJson (buildRequest command params) ++ ['\n'] ∧
    '\n' ∉ dumpsJson (buildRequest command params) ∧
    '\r' ∉ requestLine command params ∧
    (jsonSpaceFree (buildRequest command params) = true →
      ' ' ∉ requestLine command params) ∧
    (requestLine command params).count '\n' = 1 ∧
    (buildRequest command params).hasKey "command" = true ∧
    (buildRequest command params).hasKey "params" = paramsGiven params := by
  have hnl : '\n' ∉ dumpsJson (buildRequest command params) := by
    intro h
    exact (dumpsJson_safe _ '\n' h).1 rfl
  refine ⟨?_, rfl, hnl, ?_, ?_, ?_, buildRequest_hasKey_command command params,
    buildRequest_hasKey_params command params⟩
  · rw [sendCommandLocked_written command params timeout read loads]
  · intro h
    rcases List.mem_append.mp h with h1 | h2
    · exact (dumpsJson_safe _ '\r' h1).2.1 rfl
    · simp at h2
  · intro hsp h
    rcases List.mem_append.mp h with h1 | h2
    · have := (dumpsJson_safe _ ' ' h1).2.2 rfl
      rw [this] at hsp
      cases hsp
    · simp at h2
  · unfold requestLine
    rw [List.count_append]
    rw [List.count_eq_zero.mpr hnl]
    rfl

/-- Witness for `request_line_single_compact_json`: the request
`build_skill` with params `node = 7`, whose strings are space-free, so
the space conjunct applies with its premise discharged concretely. -/
theorem request_line_single_compact_json_witness :
    ((sendCommandLocked true false "build_skill" (some [("node", Json.num 7)]) 5 .ok .empty
        (fun _ => none)).2.written =
      [String.mk (requestLine "build_skill" (some [("node", Json.num 7)]))] ∧
    '\n' ∉ dumpsJson (buildRequest "build_skill" (some [("node", Json.num 7)])) ∧
    '\r' ∉ requestLine "build_skill" (some [("node", Json.num 7)])) ∧
    jsonSpaceFree (buildRequest "build_skill" (some [("node", Json.num 7)])) = true ∧
    ' ' ∉ requestLine "build_skill" (some [("node", Json.num 7)]) ∧
    (buildRequest "build_skill" (some [("node", Json.num 7)])).hasKey "params" =
      paramsGiven (some [("node", Json.num 7)]) := by
  have h := request_line_single_compact_json "build_skill" (some [("node", Json.num 7)]) 5
    .empty (fun _ => none)
  have hsp : jsonSpaceFree (buildRequest "build_skill" (some [("node", Json.num 7)])) = true := by
    simp [buildRequest, jsonSpaceFree, fieldsSpaceFree, strSpaceFree]
  exact ⟨⟨h.1, h.2.2.1, h.2.2.2.1⟩, hsp, h.2.2.2.2.1 hsp, h.2.2.2.2.2.2.2⟩
